import Mathlib

/-!
Verification development for the task-scheduling core of tangram-ai:
the timezone resolver (src/scheduler/timezone.ts), the cron task store
(src/scheduler/cronStore.ts), the tick-driven runner
(src/scheduler/cronRunner.ts) and the heartbeat poller
(src/scheduler/heartbeat.ts).

Instants are modelled as milliseconds since the Unix epoch (`Int`),
identifying an ISO-8601 UTC string with the millisecond value it parses
to (`Date.parse` / `toISOString` round-trip exactly on this range).
`Date.UTC` and the `getUTC*` field extractors are modelled with the
standard proleptic-Gregorian civil-calendar algorithms, which is what
ECMA-262 prescribes for them.
-/

namespace Tangram

/-- A local calendar date, as produced by `parseLocalDate` and
`Intl.DateTimeFormat.formatToParts`. -/
structure LocalDate where
  year : Int
  month : Int
  day : Int
deriving DecidableEq, Repr

/-- A local wall-clock time, as produced by `parseLocalTime`. -/
structure LocalTime where
  hour : Int
  minute : Int
deriving DecidableEq, Repr

/-- The local date-time fields returned by `formatToPartsMs` in
timezone.ts (year, month, day, hour, minute; seconds are formatted but
never read back). -/
structure LocalDateTime where
  year : Int
  month : Int
  day : Int
  hour : Int
  minute : Int
deriving DecidableEq, Repr

/-- Civil date of a day number (days since 1970-01-01), the proleptic
Gregorian conversion used by the JavaScript `Date` getUTC accessors. -/
def civilFromDays (z0 : Int) : LocalDate :=
  let z := z0 + 719468
  let era := Int.fdiv z 146097
  let doe := z - era * 146097
  let yoe := Int.fdiv (doe - Int.fdiv doe 1460 + Int.fdiv doe 36524 - Int.fdiv doe 146096) 365
  let y := yoe + era * 400
  let doy := doe - (365 * yoe + Int.fdiv yoe 4 - Int.fdiv yoe 100)
  let mp := Int.fdiv (5 * doy + 2) 153
  let d := doy - Int.fdiv (153 * mp + 2) 5 + 1
  let m := mp + (if mp < 10 then 3 else -9)
  ⟨(if m ≤ 2 then y + 1 else y), m, d⟩

/-- Day number (days since 1970-01-01) of a civil date, the proleptic
Gregorian conversion underlying `Date.UTC(y, m-1, d)`. -/
def daysFromCivil (date : LocalDate) : Int :=
  let y := if date.month ≤ 2 then date.year - 1 else date.year
  let era := Int.fdiv y 400
  let yoe := y - era * 400
  let mp := if 2 < date.month then date.month - 3 else date.month + 9
  let doy := Int.fdiv (153 * mp + 2) 5 + date.day - 1
  let doe := yoe * 365 + Int.fdiv yoe 4 - Int.fdiv yoe 100 + doy
  era * 146097 + doe - 719468

/-- `Date.UTC(year, month - 1, day, hour, minute, 0, 0)` in milliseconds. -/
def utcMs (date : LocalDate) (time : LocalTime) : Int :=
  daysFromCivil date * 86400000 + time.hour * 3600000 + time.minute * 60000

/-- The `observed` reconstruction in `zonedDateTimeToUtcMs`:
`Date.UTC(p.year, p.month - 1, p.day, p.hour, p.minute, 0, 0)`. -/
def naiveUtcMs (p : LocalDateTime) : Int :=
  utcMs ⟨p.year, p.month, p.day⟩ ⟨p.hour, p.minute⟩

/-- UTC calendar fields of an instant (the getUTC accessors, minute
precision), used to model rendering an instant in a zone after the
zone offset has been added. -/
def msToLocal (t : Int) : LocalDateTime :=
  let days := Int.fdiv t 86400000
  let rem := t - days * 86400000
  let date := civilFromDays days
  ⟨date.year, date.month, date.day, Int.fdiv rem 3600000, Int.fdiv (Int.fmod rem 3600000) 60000⟩

/-- `addDays` from timezone.ts: `Date.UTC` of the date plus a whole
number of days, read back through the getUTC accessors. -/
def addDays (date : LocalDate) (days : Int) : LocalDate :=
  civilFromDays (daysFromCivil date + days)

/-- A named IANA zone as the host zone database exposes it to
`Intl.DateTimeFormat`: the UTC offset (in milliseconds) the zone applies
at each instant.  `formatToPartsMs(ms, zone)` renders the instant
`ms + offsetAt ms` through the UTC field accessors. -/
structure TimeZone where
  offsetAt : Int → Int

/-- `formatToPartsMs` from timezone.ts: the local date-time fields a
zone renders an instant to. -/
def formatToParts (tz : TimeZone) (t : Int) : LocalDateTime :=
  msToLocal (t + tz.offsetAt t)

/-- Errors thrown by the timezone resolver: the
`Local datetime does not exist or is ambiguous` error of
`zonedDateTimeToUtcMs`, and the `Unable to compute next local time`
day-budget exhaustion error of `nextLocalTimeUtcIso`. -/
inductive TzError
  | nonexistentOrAmbiguous
  | noOccurrence
deriving DecidableEq, Repr

/-- The bounded fixed-point loop of `zonedDateTimeToUtcMs`
(`for (let i = 0; i < 8; i++) { ... if (diff === 0) break; guess += diff; }`). -/
def zLoop (tz : TimeZone) (target : Int) : Nat → Int → Int
  | 0, guess => guess
  | n + 1, guess =>
    let p := formatToParts tz guess
    let observed := naiveUtcMs p
    let diff := target - observed
    if diff = 0 then guess else zLoop tz target n (guess + diff)

/-- `zonedDateTimeToUtcMs` from timezone.ts: iterate the offset
fixed-point from the naive guess, then re-render the final guess and
fail if it does not reproduce the requested local fields exactly.
(`assertValidTimeZone` cannot fail here: a `TimeZone` is total.) -/
def zonedDateTimeToUtcMs (tz : TimeZone) (date : LocalDate) (time : LocalTime) :
    Except TzError Int :=
  let target := utcMs date time
  let guess := zLoop tz target 8 target
  let fp := formatToParts tz guess
  if fp.year = date.year ∧ fp.month = date.month ∧ fp.day = date.day ∧
      fp.hour = time.hour ∧ fp.minute = time.minute then
    .ok guess
  else
    .error .nonexistentOrAmbiguous

/-- The date part of rendered local fields (`startDate` in
`nextLocalTimeUtcIso`). -/
def dateOf (p : LocalDateTime) : LocalDate :=
  ⟨p.year, p.month, p.day⟩

/-- The day-scan loop of `nextLocalTimeUtcIso`: candidate day `i`
counting up, `fuel` iterations remaining.  A resolution failure inside
the loop propagates (the source has no try/catch around
`zonedDateTimeToUtcMs`); exhaustion is the defensive
`Unable to compute next local time` error. -/
def nextLoop (tz : TimeZone) (time : LocalTime) (fromMs : Int) (start : LocalDate) :
    Nat → Nat → Except TzError Int
  | 0, _ => .error .noOccurrence
  | fuel + 1, i =>
    match zonedDateTimeToUtcMs tz (addDays start i) time with
    | .error e => .error e
    | .ok u => if fromMs < u then .ok u else nextLoop tz time fromMs start fuel (i + 1)

/-- `nextLocalTimeUtcIso` from timezone.ts (on millisecond instants):
render `fromMs` into the zone to get the starting date, then scan up to
3660 candidate days for the first resolution strictly after `fromMs`. -/
def nextLocalTimeUtcMs (tz : TimeZone) (time : LocalTime) (fromMs : Int) :
    Except TzError Int :=
  nextLoop tz time fromMs (dateOf (formatToParts tz fromMs)) 3660 0

/-! ## Cron task store (src/scheduler/cronStore.ts) -/

/-- The repeat setting of a task.  The `once` and `interval` variants
are from src/unnamed/part_000.

Modelled from the spec: the `daily_local` variant
(`{daily_local, timezone, localTime}` in spec section 3) is constructed
by the `cron_schedule_local` tool in src/src/tools/cronTools.ts but the
store version under src/ lacks it; it carries the IANA zone name and
the parsed `HH:mm` local time. -/
inductive CronRepeat
  | once
  | interval (everySeconds : Int)
  | daily_local (timezone : String) (localTime : LocalTime)
deriving DecidableEq, Repr

/-- A scheduled task record (`CronTask` in cronStore.ts), with ISO
instant strings modelled as epoch milliseconds. -/
structure CronTask where
  id : String
  message : String
  threadId : String
  runAt : Int
  nextRunAt : Int
  «repeat» : CronRepeat
  enabled : Bool
  createdAt : Int
  updatedAt : Int
  lastRunAt : Option Int
  lastError : Option String
deriving DecidableEq, Repr

/-- Result of a mutating store call: the task collection afterwards and
whether `save()` (the synchronous persistence write) was reached. -/
structure StoreResult where
  tasks : List CronTask
  saved : Bool
deriving DecidableEq, Repr

namespace CronStore

/-- In-place mutation of the task object `get(id)` returned (the first
array element with that id), as a functional update. -/
def updateTask : List CronTask → String → CronTask → List CronTask
  | [], _, _ => []
  | x :: xs, taskId, t' =>
    if x.id = taskId then t' :: xs else x :: updateTask xs taskId t'

/-- `CronStore.get`. -/
def get (tasks : List CronTask) (taskId : String) : Option CronTask :=
  tasks.find? (fun t => t.id == taskId)

/-- `CronStore.list`: all tasks ordered by ascending `nextRunAt`,
capped to `max 1 limit` entries.  (The source sorts the ISO strings
with `localeCompare`, which on same-format UTC ISO strings agrees with
the chronological order used here.) -/
def list (tasks : List CronTask) (limit : Int) : List CronTask :=
  (List.insertionSort (fun a b => a.nextRunAt ≤ b.nextRunAt) tasks).take (max 1 limit).toNat

/-- `CronStore.due`: enabled tasks whose `nextRunAt` is at or before
`now`. -/
def due (tasks : List CronTask) (now : Int) : List CronTask :=
  tasks.filter (fun t => t.enabled && decide (t.nextRunAt ≤ now))

/-- The interval catch-up loop of `markRunSuccess`:
`let next = base + step; while (next <= nowMs) next += step;` given its
entry value `next`.  The `0 < step` conjunct in the guard only affects
inputs on which the source loop diverges; every stored interval task
has `everySeconds ≥ 5` (enforced by `normalizeTask`), hence `step > 0`. -/
def catchUp (step nowMs next : Int) : Int :=
  if _h : 0 < step ∧ next ≤ nowMs then catchUp step nowMs (next + step) else next
termination_by (nowMs + step - next).toNat
decreasing_by
  omega

/-- `CronStore.markRunSuccess(taskId, atIso)`.  `atMs` is the `atIso`
argument (defaulting to the first clock read), `nowMs` the second clock
read (`Date.now()`) used by the interval catch-up; the two reads are
passed separately as in the source.

Modelled from the spec: the `daily_local` branch, absent from the store
version under src/, recomputes `nextRunAt` as the next occurrence of
`localTime` in `timezone` strictly after now via the TimeZoneResolver
(`db` maps zone names to the host zone database's offset data); the
spec does not say what happens when the resolver fails, so that case
leaves `nextRunAt` unchanged here (no claim depends on it). -/
def markRunSuccess (db : String → TimeZone) (tasks : List CronTask)
    (taskId : String) (atMs nowMs : Int) : StoreResult :=
  match tasks.find? (fun t => t.id == taskId) with
  | none => ⟨tasks, false⟩
  | some t =>
    let t1 : CronTask :=
      { t with lastRunAt := some atMs, lastError := none, updatedAt := atMs }
    match t.«repeat» with
    | .once => ⟨tasks.filter (fun x => !(x.id == taskId)), true⟩
    | .interval sec =>
      let step := sec * 1000
      let base := t.nextRunAt
      let next := catchUp step nowMs (base + step)
      ⟨updateTask tasks taskId { t1 with nextRunAt := next }, true⟩
    | .daily_local zone lt =>
      let next :=
        match nextLocalTimeUtcMs (db zone) lt nowMs with
        | .ok u => u
        | .error _ => t.nextRunAt
      ⟨updateTask tasks taskId { t1 with nextRunAt := next }, true⟩

/-- `errorText.slice(0, 2000)`: truncation to at most 2000 characters. -/
def truncateError (s : String) : String :=
  String.mk (s.toList.take 2000)

/-- `CronStore.markRunFailure(taskId, errorText)`.  The source reads
the clock twice (`nowIso()` for `updatedAt`, `Date.now()` for the retry
target); both reads are modelled as the single instant `nowMs`. -/
def markRunFailure (tasks : List CronTask) (taskId errorText : String)
    (nowMs : Int) : StoreResult :=
  match tasks.find? (fun t => t.id == taskId) with
  | none => ⟨tasks, false⟩
  | some t =>
    ⟨updateTask tasks taskId
      { t with lastError := some (truncateError errorText),
               updatedAt := nowMs,
               nextRunAt := nowMs + 60000 }, true⟩

end CronStore

/-! ## Scheduler runner (src/scheduler/cronRunner.ts)

`CronRunner.tick` begins with the synchronous guard
`if (this.running) return; this.running = true;` and ends with
`finally { this.running = false }`.  Because the guard check-and-set
is synchronous (no await before it), a timer firing during an
in-flight tick observes `running = true` and returns at once.  The
tick body — one `due()` query followed by one sequential dispatch of
each due task — is abstracted to a single event, since concurrent
firings interact with it only through the `running` flag. -/

/-- Runner state: the in-progress flag, the ids dispatched so far, and
how many execution passes have begun. -/
structure RunnerState where
  running : Bool
  dispatched : List String
  passes : Nat
deriving DecidableEq, Repr

namespace CronRunner

/-- The runner before any timer firing. -/
def init : RunnerState := ⟨false, [], 0⟩

/-- A timer firing calling `tick()` with due set `due`: dropped when a
tick is in progress, otherwise it starts a pass and dispatches each
due task in sequence. -/
def fireTick (s : RunnerState) (due : List String) : RunnerState :=
  if s.running then s
  else ⟨true, s.dispatched ++ due, s.passes + 1⟩

/-- The `finally` block at the end of a tick. -/
def finishTick (s : RunnerState) : RunnerState :=
  { s with running := false }

end CronRunner

/-! ## Heartbeat poller (src/scheduler/heartbeat.ts) -/

/-- Outcome of the `fs.readFile` call inside `HeartbeatRunner.tick`:
the file's content, a missing file (`ENOENT`), or another read error. -/
inductive ReadResult
  | content (text : String)
  | enoent
  | failure (msg : String)
deriving DecidableEq, Repr

/-- Outcome of the `invoke` capability. -/
inductive InvokeResult
  | reply (text : String)
  | failure (msg : String)
deriving DecidableEq, Repr

/-- JavaScript `String.prototype.trim`: drop leading and trailing
whitespace.  (Modelled on the character list so it evaluates; the JS
whitespace class differs from `Char.isWhitespace` only in exotic
characters none of the claims mention.) -/
def jsTrim (s : String) : String :=
  String.mk (((s.toList.dropWhile Char.isWhitespace).reverse.dropWhile
    Char.isWhitespace).reverse)

/-- The fixed preamble wrapped around the instruction file's trimmed
content: `["[HEARTBEAT] ...", "", trimmed].join("\n")`. -/
def heartbeatText (trimmed : String) : String :=
  "[HEARTBEAT] Execute according to HEARTBEAT.md instructions.\n\n" ++ trimmed

/-- Result of one heartbeat tick: the `invoke` calls made (threadId and
text of each), whether an exception escaped `tick`, and the `running`
flag after the tick. -/
structure HeartbeatTickResult where
  invocations : List (String × String)
  escaped : Bool
  running : Bool
deriving DecidableEq, Repr

/-- The body of `HeartbeatRunner.tick` inside the outer try: the calls
made to `invoke`, and the exception (if any) reaching the outer catch.
`ENOENT` is handled by the inner catch (logged, early return); any
other read error is rethrown; an empty-after-trim file returns without
calling `invoke`; an `invoke` error is thrown after the call was made. -/
def heartbeatBody (threadId : String) (read : ReadResult)
    (invoke : String → String → InvokeResult) :
    List (String × String) × Except String Unit :=
  match read with
  | .enoent => ([], .ok ())
  | .failure e => ([], .error e)
  | .content c =>
    let trimmed := jsTrim c
    if trimmed = "" then ([], .ok ())
    else
      let text := heartbeatText trimmed
      match invoke threadId text with
      | .reply _ => ([(threadId, text)], .ok ())
      | .failure e => ([(threadId, text)], .error e)

/-- `HeartbeatRunner.tick`: the outer `try/catch/finally` logs any
error from the body (no exception escapes) and always resets the
`running` flag, so the next timer firing is not suppressed. -/
def heartbeatTick (threadId : String) (read : ReadResult)
    (invoke : String → String → InvokeResult) : HeartbeatTickResult :=
  match heartbeatBody threadId read invoke with
  | (calls, .ok _) => ⟨calls, false, false⟩
  | (calls, .error _) => ⟨calls, false, false⟩

/-! ## Concrete instances used by witnesses and counterexamples -/

/-- A zone with constant offset 0 (UTC). -/
def utcZone : TimeZone := ⟨fun _ => 0⟩

/-- A zone whose offset falls from +2h to +1h at instant 90000000
(1970-01-02 01:00:00 UTC): a fall-back transition, making local times
in [02:00, 03:00) of 1970-01-02 occur twice. -/
def fallBackZone : TimeZone := ⟨fun t => if t < 90000000 then 7200000 else 3600000⟩

/-- A zone whose offset jumps from +1h to +2h at instant 90000000
(1970-01-02 01:00:00 UTC): a spring-forward transition, making local
times in [02:00, 03:00) of 1970-01-02 nonexistent. -/
def springForwardZone : TimeZone := ⟨fun t => if t < 90000000 then 3600000 else 7200000⟩

/-- A host zone database mapping every zone name to UTC. -/
def constDb : String → TimeZone := fun _ => utcZone

/-- The interval task of the spec's worked example: scheduled at
2026-01-01T00:00:00Z, `nextRunAt` 2026-01-01T00:00:05Z, every 5 s. -/
def exampleTask : CronTask :=
  { id := "cron_1", message := "ping", threadId := "tg:demo",
    runAt := 1767225600000, nextRunAt := 1767225605000,
    «repeat» := .interval 5, enabled := true,
    createdAt := 1767225600000, updatedAt := 1767225600000,
    lastRunAt := none, lastError := none }

/-- A daily-local task in zone "UTC" at local time 00:01. -/
def exampleDailyTask : CronTask :=
  { id := "cron_daily", message := "report", threadId := "tg:demo",
    runAt := 0, nextRunAt := 0,
    «repeat» := .daily_local "UTC" ⟨0, 1⟩, enabled := true,
    createdAt := 0, updatedAt := 0, lastRunAt := none, lastError := none }

/-- A one-shot task. -/
def exampleOnceTask : CronTask :=
  { id := "cron_once", message := "remind", threadId := "tg:demo",
    runAt := 1000, nextRunAt := 1000,
    «repeat» := .once, enabled := true,
    createdAt := 0, updatedAt := 0, lastRunAt := none, lastError := none }

/-! ## Helper lemmas -/

lemma nextLoop_succ (tz : TimeZone) (time : LocalTime) (fromMs : Int) (start : LocalDate)
    (fuel i : Nat) :
    nextLoop tz time fromMs start (fuel + 1) i =
      match zonedDateTimeToUtcMs tz (addDays start i) time with
      | .error e => .error e
      | .ok u => if fromMs < u then .ok u else nextLoop tz time fromMs start fuel (i + 1) := rfl

lemma nextLoop_ok (tz : TimeZone) (time : LocalTime) (fromMs : Int) (start : LocalDate) :
    ∀ (fuel i : ℕ) (t : Int), nextLoop tz time fromMs start fuel i = .ok t →
      fromMs < t ∧ ∃ k : ℕ, i ≤ k ∧ k < i + fuel ∧
        zonedDateTimeToUtcMs tz (addDays start k) time = .ok t ∧
        ∀ j : ℕ, i ≤ j → j < k →
          ∃ u, zonedDateTimeToUtcMs tz (addDays start j) time = .ok u ∧ u ≤ fromMs := by
  intro fuel
  induction fuel with
  | zero => intro i t h; exact Except.noConfusion h
  | succ fuel ih =>
    intro i t h
    rw [nextLoop_succ] at h
    cases hz : zonedDateTimeToUtcMs tz (addDays start i) time with
    | error e =>
      rw [hz] at h
      exact Except.noConfusion h
    | ok u =>
      rw [hz] at h
      replace h : (if fromMs < u then Except.ok u
          else nextLoop tz time fromMs start fuel (i + 1)) = Except.ok t := h
      by_cases hu : fromMs < u
      · rw [if_pos hu] at h
        have hut : u = t := by injection h
        subst hut
        refine ⟨hu, i, le_rfl, by omega, hz, ?_⟩
        intro j hj1 hj2
        omega
      · rw [if_neg hu] at h
        obtain ⟨hlt, k, hik, hkb, hres, hprev⟩ := ih (i + 1) t h
        refine ⟨hlt, k, by omega, by omega, hres, ?_⟩
        intro j hj1 hj2
        rcases Nat.eq_or_lt_of_le hj1 with rfl | hj
        · exact ⟨u, hz, le_of_not_lt hu⟩
        · exact hprev j hj hj2

lemma nextLoop_err (tz : TimeZone) (time : LocalTime) (fromMs : Int) (start : LocalDate) :
    ∀ (fuel i j : ℕ) (e : TzError), i ≤ j → j < i + fuel →
      zonedDateTimeToUtcMs tz (addDays start j) time = .error e →
      (∀ l : ℕ, i ≤ l → l < j →
        ∃ u, zonedDateTimeToUtcMs tz (addDays start l) time = .ok u ∧ u ≤ fromMs) →
      nextLoop tz time fromMs start fuel i = .error e := by
  intro fuel
  induction fuel with
  | zero => intro i j e hij hjb _ _; omega
  | succ fuel ih =>
    intro i j e hij hjb herr hprev
    rw [nextLoop_succ]
    rcases Nat.eq_or_lt_of_le hij with rfl | hlt
    · rw [herr]
    · obtain ⟨u, hu, hule⟩ := hprev i le_rfl hlt
      rw [hu]
      show (if fromMs < u then Except.ok u
          else nextLoop tz time fromMs start fuel (i + 1)) = Except.error e
      rw [if_neg (not_lt.mpr hule)]
      exact ih (i + 1) j e (by omega) (by omega) herr (fun l h1 h2 => hprev l (by omega) h2)

lemma nextLocalTimeUtcMs_ok (tz : TimeZone) (time : LocalTime) (fromMs t : Int)
    (h : nextLocalTimeUtcMs tz time fromMs = .ok t) :
    fromMs < t ∧ ∃ k : ℕ, k < 3660 ∧
      zonedDateTimeToUtcMs tz (addDays (dateOf (formatToParts tz fromMs)) k) time = .ok t ∧
      ∀ j : ℕ, j < k →
        ∃ u, zonedDateTimeToUtcMs tz (addDays (dateOf (formatToParts tz fromMs)) j) time =
          .ok u ∧ u ≤ fromMs := by
  obtain ⟨h1, k, _, hk, hres, hprev⟩ := nextLoop_ok tz time fromMs _ 3660 0 t h
  exact ⟨h1, k, by omega, hres, fun j hj => hprev j (Nat.zero_le _) hj⟩

lemma catchUp_spec (step nowMs : Int) (hstep : 0 < step) :
    ∀ next : Int, ∃ n : ℕ, CronStore.catchUp step nowMs next = next + n * step ∧
      nowMs < next + n * step ∧ ∀ m : ℕ, nowMs < next + m * step → n ≤ m := by
  have key : ∀ fuel : ℕ, ∀ next : Int, (nowMs + step - next).toNat < fuel →
      ∃ n : ℕ, CronStore.catchUp step nowMs next = next + n * step ∧
        nowMs < next + n * step ∧ ∀ m : ℕ, nowMs < next + m * step → n ≤ m := by
    intro fuel
    induction fuel with
    | zero => intro next h; exact absurd h (Nat.not_lt_zero _)
    | succ fuel ih =>
      intro next hfuel
      rw [CronStore.catchUp]
      by_cases hle : next ≤ nowMs
      · rw [dif_pos (⟨hstep, hle⟩ : 0 < step ∧ next ≤ nowMs)]
        obtain ⟨n, heq, hgt, hmin⟩ := ih (next + step) (by omega)
        refine ⟨n + 1, ?_, ?_, ?_⟩
        · rw [heq]; push_cast; ring
        · have hcast : ((n : Int) + 1) * step = step + (n : Int) * step := by ring
          push_cast
          rw [hcast]
          linarith
        · intro m hm
          match m with
          | 0 => simp at hm; omega
          | m + 1 =>
            have hm' : nowMs < next + step + (m : Int) * step := by
              push_cast at hm
              linarith [hm]
            have := hmin m hm'
            omega
      · rw [dif_neg (fun hc => hle hc.2)]
        exact ⟨0, by simp, by simp; omega, fun m _ => Nat.zero_le m⟩
  intro next
  exact key ((nowMs + step - next).toNat + 1) next (Nat.lt_succ_self _)

lemma find?_updateTask (tasks : List CronTask) (taskId : String) (t t' : CronTask)
    (h : tasks.find? (fun x => x.id == taskId) = some t) (ht' : t'.id = taskId) :
    (CronStore.updateTask tasks taskId t').find? (fun x => x.id == taskId) = some t' := by
  induction tasks with
  | nil => simp at h
  | cons x xs ih =>
    by_cases hx : x.id = taskId
    · simp only [CronStore.updateTask, if_pos hx]
      rw [List.find?_cons_of_pos]
      simp [ht']
    · simp only [CronStore.updateTask, if_neg hx]
      rw [List.find?_cons_of_neg _ (by simp [hx])]
      rw [List.find?_cons_of_neg _ (by simp [hx])] at h
      exact ih h

lemma markRunSuccess_eq_of_find (db : String → TimeZone) (tasks : List CronTask)
    (taskId : String) (atMs nowMs : Int) (t : CronTask)
    (hfind : tasks.find? (fun x => x.id == taskId) = some t) :
    CronStore.markRunSuccess db tasks taskId atMs nowMs =
      (match t.«repeat» with
       | .once => ⟨tasks.filter (fun x => !(x.id == taskId)), true⟩
       | .interval sec =>
         ⟨CronStore.updateTask tasks taskId
           { t with lastRunAt := some atMs, lastError := none, updatedAt := atMs,
                    nextRunAt := CronStore.catchUp (sec * 1000) nowMs (t.nextRunAt + sec * 1000) },
          true⟩
       | .daily_local zone lt =>
         ⟨CronStore.updateTask tasks taskId
           { t with lastRunAt := some atMs, lastError := none, updatedAt := atMs,
                    nextRunAt :=
                      match nextLocalTimeUtcMs (db zone) lt nowMs with
                      | .ok u => u
                      | .error _ => t.nextRunAt },
          true⟩) := by
  unfold CronStore.markRunSuccess
  rw [hfind]

lemma markRunFailure_eq_of_find (tasks : List CronTask) (taskId errorText : String)
    (nowMs : Int) (t : CronTask)
    (hfind : tasks.find? (fun x => x.id == taskId) = some t) :
    CronStore.markRunFailure tasks taskId errorText nowMs =
      ⟨CronStore.updateTask tasks taskId
        { t with lastError := some (CronStore.truncateError errorText),
                 updatedAt := nowMs, nextRunAt := nowMs + 60000 }, true⟩ := by
  unfold CronStore.markRunFailure
  rw [hfind]

lemma find?_some_id (tasks : List CronTask) (taskId : String) (t : CronTask)
    (hfind : tasks.find? (fun x => x.id == taskId) = some t) : t.id = taskId := by
  have := List.find?_some hfind
  simpa using this

lemma markRunSuccess_eq_once (db : String → TimeZone) (tasks : List CronTask)
    (taskId : String) (atMs nowMs : Int) (t : CronTask)
    (hfind : tasks.find? (fun x => x.id == taskId) = some t)
    (hrep : t.«repeat» = .once) :
    CronStore.markRunSuccess db tasks taskId atMs nowMs =
      ⟨tasks.filter (fun x => !(x.id == taskId)), true⟩ := by
  rw [markRunSuccess_eq_of_find db tasks taskId atMs nowMs t hfind, hrep]

lemma markRunSuccess_eq_interval (db : String → TimeZone) (tasks : List CronTask)
    (taskId : String) (atMs nowMs : Int) (t : CronTask) (sec : Int)
    (hfind : tasks.find? (fun x => x.id == taskId) = some t)
    (hrep : t.«repeat» = .interval sec) :
    CronStore.markRunSuccess db tasks taskId atMs nowMs =
      ⟨CronStore.updateTask tasks taskId
        { t with lastRunAt := some atMs, lastError := none, updatedAt := atMs,
                 nextRunAt := CronStore.catchUp (sec * 1000) nowMs (t.nextRunAt + sec * 1000) },
       true⟩ := by
  rw [markRunSuccess_eq_of_find db tasks taskId atMs nowMs t hfind, hrep]

lemma markRunSuccess_eq_daily (db : String → TimeZone) (tasks : List CronTask)
    (taskId : String) (atMs nowMs : Int) (t : CronTask) (zone : String) (lt : LocalTime)
    (hfind : tasks.find? (fun x => x.id == taskId) = some t)
    (hrep : t.«repeat» = .daily_local zone lt) :
    CronStore.markRunSuccess db tasks taskId atMs nowMs =
      ⟨CronStore.updateTask tasks taskId
        { t with lastRunAt := some atMs, lastError := none, updatedAt := atMs,
                 nextRunAt :=
                   match nextLocalTimeUtcMs (db zone) lt nowMs with
                   | .ok u => u
                   | .error _ => t.nextRunAt },
       true⟩ := by
  rw [markRunSuccess_eq_of_find db tasks taskId atMs nowMs t hfind, hrep]

lemma mem_list_subset (tasks : List CronTask) (limit : Int) :
    ∀ x ∈ CronStore.list tasks limit, x ∈ tasks := by
  intro x hx
  unfold CronStore.list at hx
  exact (List.perm_insertionSort _ _).subset (List.take_subset _ _ hx)

lemma mem_due_subset (tasks : List CronTask) (now : Int) :
    ∀ x ∈ CronStore.due tasks now, x ∈ tasks := by
  intro x hx
  exact (List.mem_filter.mp hx).1

lemma mem_filter_ne (tasks : List CronTask) (taskId : String) :
    ∀ x ∈ tasks.filter (fun y => !(y.id == taskId)), x.id ≠ taskId := by
  intro x hx
  have := (List.mem_filter.mp hx).2
  simpa using this

/-! ## Claim theorems -/

/-- Claim C3: whenever `zonedDateTimeToUtc` returns a UTC instant,
rendering that instant back into the zone reproduces exactly the
requested local year, month, day, hour and minute; and whenever the
final re-render does not match the requested local fields, the function
fails with the nonexistent-or-ambiguous error instead of returning an
instant. -/
theorem zonedDateTimeToUtc_roundtrip (tz : TimeZone) (date : LocalDate) (time : LocalTime) :
    (∀ t : Int, zonedDateTimeToUtcMs tz date time = .ok t →
      formatToParts tz t = ⟨date.year, date.month, date.day, time.hour, time.minute⟩) ∧
    (formatToParts tz (zLoop tz (utcMs date time) 8 (utcMs date time)) ≠
        ⟨date.year, date.month, date.day, time.hour, time.minute⟩ →
      zonedDateTimeToUtcMs tz date time = .error .nonexistentOrAmbiguous) := by
  have hdef : zonedDateTimeToUtcMs tz date time =
      (if (formatToParts tz (zLoop tz (utcMs date time) 8 (utcMs date time))).year = date.year ∧
          (formatToParts tz (zLoop tz (utcMs date time) 8 (utcMs date time))).month = date.month ∧
          (formatToParts tz (zLoop tz (utcMs date time) 8 (utcMs date time))).day = date.day ∧
          (formatToParts tz (zLoop tz (utcMs date time) 8 (utcMs date time))).hour = time.hour ∧
          (formatToParts tz (zLoop tz (utcMs date time) 8 (utcMs date time))).minute = time.minute
        then Except.ok (zLoop tz (utcMs date time) 8 (utcMs date time))
        else Except.error TzError.nonexistentOrAmbiguous) := rfl
  constructor
  · intro t h
    rw [hdef] at h
    by_cases hc :
        (formatToParts tz (zLoop tz (utcMs date time) 8 (utcMs date time))).year = date.year ∧
        (formatToParts tz (zLoop tz (utcMs date time) 8 (utcMs date time))).month = date.month ∧
        (formatToParts tz (zLoop tz (utcMs date time) 8 (utcMs date time))).day = date.day ∧
        (formatToParts tz (zLoop tz (utcMs date time) 8 (utcMs date time))).hour = time.hour ∧
        (formatToParts tz (zLoop tz (utcMs date time) 8 (utcMs date time))).minute = time.minute
    · rw [if_pos hc] at h
      obtain ⟨h1, h2, h3, h4, h5⟩ := hc
      have hg : zLoop tz (utcMs date time) 8 (utcMs date time) = t := by injection h
      rw [← hg, ← h1, ← h2, ← h3, ← h4, ← h5]
    · rw [if_neg hc] at h
      exact Except.noConfusion h
  · intro hne
    rw [hdef]
    have hc : ¬((formatToParts tz (zLoop tz (utcMs date time) 8 (utcMs date time))).year = date.year ∧
        (formatToParts tz (zLoop tz (utcMs date time) 8 (utcMs date time))).month = date.month ∧
        (formatToParts tz (zLoop tz (utcMs date time) 8 (utcMs date time))).day = date.day ∧
        (formatToParts tz (zLoop tz (utcMs date time) 8 (utcMs date time))).hour = time.hour ∧
        (formatToParts tz (zLoop tz (utcMs date time) 8 (utcMs date time))).minute = time.minute) :=
      fun ⟨h1, h2, h3, h4, h5⟩ => hne (by rw [← h1, ← h2, ← h3, ← h4, ← h5])
    rw [if_neg hc]

/-- Witness for C3: resolving 1970-01-01 00:01 in a zero-offset zone
returns instant 60000, which renders back to the requested fields. -/
theorem zonedDateTimeToUtc_roundtrip_witness :
    zonedDateTimeToUtcMs utcZone ⟨1970, 1, 1⟩ ⟨0, 1⟩ = .ok 60000 ∧
    formatToParts utcZone 60000 = ⟨1970, 1, 1, 0, 1⟩ :=
  ⟨rfl, (zonedDateTimeToUtc_roundtrip utcZone ⟨1970, 1, 1⟩ ⟨0, 1⟩).1 60000 rfl⟩

/-- Counterexample for C4 as stated: in a fall-back zone (offset drops
from +2h to +1h at instant 90000000), asking for the next local 02:30
from instant 87000000 returns 91800000 — but 88200000 also renders to
local 1970-01-02 02:30 and lies strictly between the `from` instant and
the returned one, so an earlier valid occurrence of the requested local
time is skipped (the ambiguous fall-back duplicate). -/
theorem nextLocalTimeUtc_ambiguous_duplicate_between :
    nextLocalTimeUtcMs fallBackZone ⟨2, 30⟩ 87000000 = .ok 91800000 ∧
    formatToParts fallBackZone 88200000 = ⟨1970, 1, 2, 2, 30⟩ ∧
    (87000000 : Int) < 88200000 ∧ (88200000 : Int) < 91800000 :=
  ⟨rfl, rfl, by norm_num, by norm_num⟩

/-- Claim C4 (amended): whenever `nextLocalTimeUtc` returns an instant,
that instant is strictly greater than `fromMs`, and it is the
resolution of the first scanned candidate calendar day whose resolution
exceeds `fromMs`: every earlier candidate day resolves to an occurrence
at or before `fromMs`.  (An earlier fall-back duplicate of the same
day's ambiguous local time may still lie strictly between `fromMs` and
the returned instant, as the counterexample shows.) -/
theorem nextLocalTimeUtc_first_resolution_after (tz : TimeZone) (time : LocalTime)
    (fromMs t : Int) (h : nextLocalTimeUtcMs tz time fromMs = .ok t) :
    fromMs < t ∧ ∃ k : ℕ, k < 3660 ∧
      zonedDateTimeToUtcMs tz (addDays (dateOf (formatToParts tz fromMs)) k) time = .ok t ∧
      ∀ j : ℕ, j < k →
        ∃ u, zonedDateTimeToUtcMs tz (addDays (dateOf (formatToParts tz fromMs)) j) time =
          .ok u ∧ u ≤ fromMs :=
  nextLocalTimeUtcMs_ok tz time fromMs t h

/-- Witness for C4 (amended): next local 00:01 in the zero-offset zone
from instant 0 is 60000, strictly in the future. -/
theorem nextLocalTimeUtc_first_resolution_after_witness :
    nextLocalTimeUtcMs utcZone ⟨0, 1⟩ 0 = .ok 60000 ∧ (0 : Int) < 60000 :=
  ⟨rfl, (nextLocalTimeUtc_first_resolution_after utcZone ⟨0, 1⟩ 0 60000 rfl).1⟩

/-- Counterexample for C5 as stated: in a spring-forward zone (offset
jumps from +1h to +2h at instant 90000000), asking for the next local
02:30 from instant 10800000 fails with the nonexistent-or-ambiguous
error — candidate day 1 falls in the DST gap and is not skipped — even
though candidate day 2 resolves to 174600000, a valid occurrence
strictly after the `from` instant. -/
theorem nextLocalTimeUtc_gap_day_fails :
    nextLocalTimeUtcMs springForwardZone ⟨2, 30⟩ 10800000 = .error .nonexistentOrAmbiguous ∧
    zonedDateTimeToUtcMs springForwardZone
        (addDays (dateOf (formatToParts springForwardZone 10800000)) 1) ⟨2, 30⟩ =
      .error .nonexistentOrAmbiguous ∧
    zonedDateTimeToUtcMs springForwardZone
        (addDays (dateOf (formatToParts springForwardZone 10800000)) 2) ⟨2, 30⟩ =
      .ok 174600000 ∧
    (10800000 : Int) < 174600000 :=
  ⟨rfl, rfl, rfl, by norm_num⟩

/-- Claim C5 (amended): a candidate day within the search window whose
resolution fails is not skipped — the error propagates and the whole
`nextLocalTimeUtc` call fails with it, provided every earlier candidate
day resolved to an occurrence at or before `fromMs`. -/
theorem nextLocalTimeUtc_gap_error_propagates (tz : TimeZone) (time : LocalTime)
    (fromMs : Int) (j : ℕ) (e : TzError) (hj : j < 3660)
    (herr : zonedDateTimeToUtcMs tz (addDays (dateOf (formatToParts tz fromMs)) j) time =
      .error e)
    (hprev : ∀ l : ℕ, l < j →
      ∃ u, zonedDateTimeToUtcMs tz (addDays (dateOf (formatToParts tz fromMs)) l) time =
        .ok u ∧ u ≤ fromMs) :
    nextLocalTimeUtcMs tz time fromMs = .error e :=
  nextLoop_err tz time fromMs _ 3660 0 j e (Nat.zero_le _) (by omega) herr
    (fun l _ h2 => hprev l h2)

/-- Witness for C5 (amended): the spring-forward scenario instantiated
at candidate day 1. -/
theorem nextLocalTimeUtc_gap_error_propagates_witness :
    zonedDateTimeToUtcMs springForwardZone
        (addDays (dateOf (formatToParts springForwardZone 10800000)) 1) ⟨2, 30⟩ =
      .error .nonexistentOrAmbiguous ∧
    nextLocalTimeUtcMs springForwardZone ⟨2, 30⟩ 10800000 = .error .nonexistentOrAmbiguous := by
  refine ⟨rfl, ?_⟩
  refine nextLocalTimeUtc_gap_error_propagates springForwardZone ⟨2, 30⟩ 10800000 1
    .nonexistentOrAmbiguous (by norm_num) rfl ?_
  intro l hl
  have hl0 : l = 0 := by omega
  subst hl0
  exact ⟨5400000, rfl, by norm_num⟩

/-- Claim C1: for a task with `repeat = interval s`, `markRunSuccess`
advances `nextRunAt` from the old `nextRunAt` by `k * s` seconds, where
`k ≥ 1` is the smallest integer making the result strictly greater than
the wall-clock time of the call; in particular the new `nextRunAt` is
never at or before that time.  (`0 < sec` holds for every stored
interval task: `normalizeTask` enforces `everySeconds ≥ 5`.) -/
theorem markRunSuccess_interval_advance (db : String → TimeZone) (tasks : List CronTask)
    (taskId : String) (t : CronTask) (sec atMs nowMs : Int)
    (hfind : tasks.find? (fun x => x.id == taskId) = some t)
    (hrep : t.«repeat» = .interval sec) (hsec : 0 < sec) :
    ∃ k : ℕ, 1 ≤ k ∧
      (CronStore.markRunSuccess db tasks taskId atMs nowMs).tasks.find?
          (fun x => x.id == taskId) =
        some { t with lastRunAt := some atMs, lastError := none, updatedAt := atMs,
                      nextRunAt := t.nextRunAt + (k : Int) * (sec * 1000) } ∧
      nowMs < t.nextRunAt + (k : Int) * (sec * 1000) ∧
      ∀ m : ℕ, 1 ≤ m → nowMs < t.nextRunAt + (m : Int) * (sec * 1000) → k ≤ m := by
  have hstep : (0 : Int) < sec * 1000 := by omega
  obtain ⟨n, heq, hgt, hmin⟩ := catchUp_spec (sec * 1000) nowMs hstep (t.nextRunAt + sec * 1000)
  refine ⟨n + 1, Nat.le_add_left 1 n, ?_, ?_, ?_⟩
  · rw [markRunSuccess_eq_interval db tasks taskId atMs nowMs t sec hfind hrep]
    show (CronStore.updateTask tasks taskId
        { t with lastRunAt := some atMs, lastError := none, updatedAt := atMs,
                 nextRunAt := CronStore.catchUp (sec * 1000) nowMs
                   (t.nextRunAt + sec * 1000) }).find? (fun x => x.id == taskId) = _
    rw [heq]
    have harith : t.nextRunAt + sec * 1000 + (n : Int) * (sec * 1000) =
        t.nextRunAt + ((n + 1 : ℕ) : Int) * (sec * 1000) := by push_cast; ring
    rw [harith]
    exact find?_updateTask tasks taskId t _ hfind (find?_some_id tasks taskId t hfind)
  · have hcast : ((n + 1 : ℕ) : Int) * (sec * 1000) =
        sec * 1000 + (n : Int) * (sec * 1000) := by push_cast; ring
    rw [hcast]
    linarith
  · intro m hm1 hm
    match m, hm1 with
    | m + 1, _ =>
      have hx : t.nextRunAt + ((m + 1 : ℕ) : Int) * (sec * 1000) =
          t.nextRunAt + sec * 1000 + (m : Int) * (sec * 1000) := by push_cast; ring
      rw [hx] at hm
      exact Nat.succ_le_succ (hmin m hm)

/-- Witness for C1, the spec's worked example: `nextRunAt`
2026-01-01T00:00:05Z (1767225605000), `everySeconds = 5`, success
recorded at 2026-01-01T00:00:07Z (1767225607000); the task's new
`nextRunAt` is 2026-01-01T00:00:10Z (1767225610000). -/
theorem markRunSuccess_interval_advance_witness :
    List.find? (fun x => x.id == "cron_1") [exampleTask] = some exampleTask ∧
    exampleTask.«repeat» = CronRepeat.interval 5 ∧ (0 : Int) < 5 ∧
    (CronStore.markRunSuccess constDb [exampleTask] "cron_1"
        1767225607000 1767225607000).tasks.find? (fun x => x.id == "cron_1") =
      some { exampleTask with lastRunAt := some 1767225607000, lastError := none,
                              updatedAt := 1767225607000, nextRunAt := 1767225610000 } := by
  refine ⟨rfl, rfl, by norm_num, ?_⟩
  obtain ⟨k, hk1, heq, hgt, hmin⟩ := markRunSuccess_interval_advance constDb [exampleTask]
    "cron_1" exampleTask 5 1767225607000 1767225607000 rfl rfl (by norm_num)
  have hk2 : k ≤ 1 := hmin 1 le_rfl (by norm_num [exampleTask])
  have hk : k = 1 := le_antisymm hk2 hk1
  subst hk
  have hval : exampleTask.nextRunAt + ((1 : ℕ) : Int) * (5 * 1000) = 1767225610000 := by
    norm_num [exampleTask]
  rw [hval] at heq
  exact heq

/-- Claim C2: for a task with `repeat = daily_local zone localTime`,
`markRunSuccess` recomputes `nextRunAt` as the next occurrence of
`localTime` in `zone` strictly after the current time via the
TimeZoneResolver, and the task persists in the store (it is found, not
deleted). -/
theorem markRunSuccess_daily_local_reschedules (db : String → TimeZone)
    (tasks : List CronTask) (taskId : String) (t : CronTask) (zone : String)
    (lt : LocalTime) (atMs nowMs u : Int)
    (hfind : tasks.find? (fun x => x.id == taskId) = some t)
    (hrep : t.«repeat» = .daily_local zone lt)
    (hres : nextLocalTimeUtcMs (db zone) lt nowMs = .ok u) :
    (CronStore.markRunSuccess db tasks taskId atMs nowMs).saved = true ∧
    (CronStore.markRunSuccess db tasks taskId atMs nowMs).tasks.find?
        (fun x => x.id == taskId) =
      some { t with lastRunAt := some atMs, lastError := none, updatedAt := atMs,
                    nextRunAt := u } ∧
    nowMs < u := by
  rw [markRunSuccess_eq_daily db tasks taskId atMs nowMs t zone lt hfind hrep]
  refine ⟨rfl, ?_, (nextLocalTimeUtcMs_ok (db zone) lt nowMs u hres).1⟩
  show (CronStore.updateTask tasks taskId
      { t with lastRunAt := some atMs, lastError := none, updatedAt := atMs,
               nextRunAt :=
                 match nextLocalTimeUtcMs (db zone) lt nowMs with
                 | .ok u => u
                 | .error _ => t.nextRunAt }).find? (fun x => x.id == taskId) = _
  rw [hres]
  exact find?_updateTask tasks taskId t _ hfind (find?_some_id tasks taskId t hfind)

/-- Witness for C2: a daily-local task at 00:01 in zone "UTC", success
recorded at instant 0; the resolver returns 60000 and the task stays in
the store with `nextRunAt = 60000 > 0`. -/
theorem markRunSuccess_daily_local_reschedules_witness :
    List.find? (fun x => x.id == "cron_daily") [exampleDailyTask] = some exampleDailyTask ∧
    exampleDailyTask.«repeat» = CronRepeat.daily_local "UTC" ⟨0, 1⟩ ∧
    nextLocalTimeUtcMs (constDb "UTC") ⟨0, 1⟩ 0 = .ok 60000 ∧
    ((CronStore.markRunSuccess constDb [exampleDailyTask] "cron_daily" 0 0).tasks.find?
        (fun x => x.id == "cron_daily") =
      some { exampleDailyTask with lastRunAt := some 0, lastError := none, updatedAt := 0,
                                   nextRunAt := 60000 } ∧ (0 : Int) < 60000) :=
  ⟨rfl, rfl, rfl,
    (markRunSuccess_daily_local_reschedules constDb [exampleDailyTask] "cron_daily"
      exampleDailyTask "UTC" ⟨0, 1⟩ 0 0 60000 rfl rfl rfl).2⟩

/-- Claim C7: for a task with `repeat = once`, `markRunSuccess` deletes
the task and persists the deletion: `save()` runs, `get` reports
absence, and the task appears in no `list()` and no `due()` of the
resulting store. -/
theorem markRunSuccess_once_removes (db : String → TimeZone) (tasks : List CronTask)
    (taskId : String) (t : CronTask) (atMs nowMs : Int)
    (hfind : tasks.find? (fun x => x.id == taskId) = some t)
    (hrep : t.«repeat» = .once) :
    (CronStore.markRunSuccess db tasks taskId atMs nowMs).saved = true ∧
    CronStore.get (CronStore.markRunSuccess db tasks taskId atMs nowMs).tasks taskId = none ∧
    (∀ limit : Int,
      ∀ x ∈ CronStore.list (CronStore.markRunSuccess db tasks taskId atMs nowMs).tasks limit,
        x.id ≠ taskId) ∧
    (∀ now : Int,
      ∀ x ∈ CronStore.due (CronStore.markRunSuccess db tasks taskId atMs nowMs).tasks now,
        x.id ≠ taskId) := by
  rw [markRunSuccess_eq_once db tasks taskId atMs nowMs t hfind hrep]
  refine ⟨rfl, ?_, ?_, ?_⟩
  · apply List.find?_eq_none.mpr
    intro x hx
    have := mem_filter_ne tasks taskId x hx
    simpa using this
  · intro limit x hx
    exact mem_filter_ne tasks taskId x (mem_list_subset _ limit x hx)
  · intro now x hx
    exact mem_filter_ne tasks taskId x (mem_due_subset _ now x hx)

/-- Witness for C7: a one-shot task marked successful disappears from
the store. -/
theorem markRunSuccess_once_removes_witness :
    List.find? (fun x => x.id == "cron_once") [exampleOnceTask] = some exampleOnceTask ∧
    exampleOnceTask.«repeat» = CronRepeat.once ∧
    ((CronStore.markRunSuccess constDb [exampleOnceTask] "cron_once" 2000 2000).saved = true ∧
      CronStore.get (CronStore.markRunSuccess constDb [exampleOnceTask]
        "cron_once" 2000 2000).tasks "cron_once" = none) := by
  refine ⟨rfl, rfl, ?_, ?_⟩
  · exact (markRunSuccess_once_removes constDb [exampleOnceTask] "cron_once" exampleOnceTask
      2000 2000 rfl rfl).1
  · exact (markRunSuccess_once_removes constDb [exampleOnceTask] "cron_once" exampleOnceTask
      2000 2000 rfl rfl).2.1

/-- Claim C8: for any task present in the store, `markRunFailure` sets
`lastError` to the error text truncated to at most 2000 characters,
sets `nextRunAt` to the current time plus the fixed 60-second retry
delay, and leaves `repeat` unchanged; the update is persisted. -/
theorem markRunFailure_fixed_retry (tasks : List CronTask) (taskId errorText : String)
    (nowMs : Int) (t : CronTask)
    (hfind : tasks.find? (fun x => x.id == taskId) = some t) :
    (CronStore.markRunFailure tasks taskId errorText nowMs).saved = true ∧
    (CronStore.markRunFailure tasks taskId errorText nowMs).tasks.find?
        (fun x => x.id == taskId) =
      some { t with lastError := some (CronStore.truncateError errorText),
                    updatedAt := nowMs, nextRunAt := nowMs + 60000 } ∧
    (CronStore.truncateError errorText).length ≤ 2000 ∧
    ({ t with lastError := some (CronStore.truncateError errorText),
              updatedAt := nowMs, nextRunAt := nowMs + 60000 } : CronTask).«repeat» =
      t.«repeat» := by
  rw [markRunFailure_eq_of_find tasks taskId errorText nowMs t hfind]
  refine ⟨rfl, find?_updateTask tasks taskId t _ hfind (find?_some_id tasks taskId t hfind),
    ?_, rfl⟩
  show (errorText.toList.take 2000).length ≤ 2000
  exact List.length_take_le 2000 errorText.toList

/-- Witness for C8: failing the example interval task at instant 5000
records the error and retries at 65000, with `repeat` untouched. -/
theorem markRunFailure_fixed_retry_witness :
    List.find? (fun x => x.id == "cron_1") [exampleTask] = some exampleTask ∧
    ((CronStore.markRunFailure [exampleTask] "cron_1" "boom" 5000).saved = true ∧
      (CronStore.markRunFailure [exampleTask] "cron_1" "boom" 5000).tasks.find?
          (fun x => x.id == "cron_1") =
        some { exampleTask with lastError := some (CronStore.truncateError "boom"),
                                updatedAt := 5000, nextRunAt := 65000 }) := by
  refine ⟨rfl, ?_, ?_⟩
  · exact (markRunFailure_fixed_retry [exampleTask] "cron_1" "boom" 5000 exampleTask rfl).1
  · have h := (markRunFailure_fixed_retry [exampleTask] "cron_1" "boom" 5000
      exampleTask rfl).2.1
    have : (5000 : Int) + 60000 = 65000 := by norm_num
    rw [this] at h
    exact h

/-- Claim C10: calling `markRunSuccess` or `markRunFailure` with an id
not present in the store is a silent no-op: the task collection is
unchanged and the persistence write is not reached. -/
theorem mark_missing_id_noop (db : String → TimeZone) (tasks : List CronTask)
    (taskId errorText : String) (atMs nowMs : Int)
    (hfind : tasks.find? (fun x => x.id == taskId) = none) :
    CronStore.markRunSuccess db tasks taskId atMs nowMs = ⟨tasks, false⟩ ∧
    CronStore.markRunFailure tasks taskId errorText nowMs = ⟨tasks, false⟩ := by
  constructor
  · unfold CronStore.markRunSuccess
    rw [hfind]
  · unfold CronStore.markRunFailure
    rw [hfind]

/-- Witness for C10: marking an absent id leaves the store untouched
and unpersisted. -/
theorem mark_missing_id_noop_witness :
    List.find? (fun x => x.id == "nope") [exampleTask] = none ∧
    (CronStore.markRunSuccess constDb [exampleTask] "nope" 0 0 =
        ⟨[exampleTask], false⟩ ∧
      CronStore.markRunFailure [exampleTask] "nope" "err" 0 = ⟨[exampleTask], false⟩) :=
  ⟨rfl, mark_missing_id_noop constDb [exampleTask] "nope" "err" 0 0 rfl⟩

/-- Claim C6: the `running` guard makes ticks single-flight.  A timer
firing while a tick is in progress leaves the runner state unchanged
(dropped, nothing queued); hence two firings before the first tick
completes begin exactly one execution pass, the due set is dispatched
once, and no due task is dispatched twice for the same due instant. -/
theorem tick_single_flight (due : List String) :
    (∀ s : RunnerState, s.running = true → CronRunner.fireTick s due = s) ∧
    (CronRunner.fireTick (CronRunner.fireTick CronRunner.init due) due).passes = 1 ∧
    (CronRunner.fireTick (CronRunner.fireTick CronRunner.init due) due).dispatched = due ∧
    (due.Nodup → ∀ taskId ∈ due,
      (CronRunner.fireTick (CronRunner.fireTick CronRunner.init due) due).dispatched.count
        taskId = 1) := by
  refine ⟨?_, ?_, ?_, ?_⟩
  · intro s hs
    simp [CronRunner.fireTick, hs]
  · simp [CronRunner.fireTick, CronRunner.init]
  · simp [CronRunner.fireTick, CronRunner.init]
  · intro hnd taskId hmem
    simp only [CronRunner.fireTick, CronRunner.init, Bool.false_eq_true, if_false,
      if_true, List.nil_append]
    exact List.count_eq_one_of_mem hnd hmem

/-- Witness for C6: with due set `["t1"]`, a firing during a running
tick is dropped, and two firings from idle dispatch `"t1"` once. -/
theorem tick_single_flight_witness :
    CronRunner.fireTick ⟨true, [], 1⟩ ["t1"] = ⟨true, [], 1⟩ ∧
    (CronRunner.fireTick (CronRunner.fireTick CronRunner.init ["t1"]) ["t1"]).passes = 1 ∧
    (CronRunner.fireTick (CronRunner.fireTick CronRunner.init ["t1"]) ["t1"]).dispatched.count
      "t1" = 1 :=
  ⟨(tick_single_flight ["t1"]).1 ⟨true, [], 1⟩ rfl,
   (tick_single_flight ["t1"]).2.1,
   (tick_single_flight ["t1"]).2.2.2 (by simp) "t1" (by simp)⟩

/-- Claim C9: a heartbeat tick calls `invoke` exactly once — with the
configured thread identity and the fixed preamble followed by the
file's trimmed content — if and only if the instruction file was read
and is non-empty after trimming; and no input (missing file, empty
file, read error, invoke error) makes an exception escape the tick or
leaves the `running` guard set, so subsequent ticks are not stopped. -/
theorem heartbeatTick_invoke_iff_nonempty (threadId : String) (read : ReadResult)
    (invoke : String → String → InvokeResult) :
    (heartbeatTick threadId read invoke).escaped = false ∧
    (heartbeatTick threadId read invoke).running = false ∧
    ((heartbeatTick threadId read invoke).invocations ≠ [] ↔
      ∃ c, read = .content c ∧ jsTrim c ≠ "") ∧
    (∀ c, read = .content c → jsTrim c ≠ "" →
      (heartbeatTick threadId read invoke).invocations =
        [(threadId, heartbeatText (jsTrim c))]) := by
  cases read with
  | enoent => simp [heartbeatTick, heartbeatBody]
  | failure e => simp [heartbeatTick, heartbeatBody]
  | content c =>
    by_cases hc : jsTrim c = ""
    · simp [heartbeatTick, heartbeatBody, hc]
    · cases hinv : invoke threadId (heartbeatText (jsTrim c)) with
      | reply s => simp [heartbeatTick, heartbeatBody, hc, hinv]
      | failure s => simp [heartbeatTick, heartbeatBody, hc, hinv]

/-- Witness for C9: a readable file containing "ping" produces exactly
one invocation with the fixed preamble and thread identity. -/
theorem heartbeatTick_invoke_iff_nonempty_witness :
    ReadResult.content "ping" = ReadResult.content "ping" ∧
    jsTrim "ping" ≠ "" ∧
    (heartbeatTick "hb" (.content "ping") (fun _ _ => .reply "ok")).invocations =
      [("hb", heartbeatText "ping")] := by
  refine ⟨rfl, by decide, ?_⟩
  have h := (heartbeatTick_invoke_iff_nonempty "hb" (.content "ping")
    (fun _ _ => .reply "ok")).2.2.2 "ping" rfl (by decide)
  rw [show jsTrim "ping" = "ping" from rfl] at h
  exact h

end Tangram
